import Mathlib

/-!
Shallow embedding of the TinyTX RHT03 sensor firmware: the basic variant
(`tinytx_rht03_basic/tinytx_rht03_sensor.ino`), the greenhouse variant
(`specific_sensors/green_house_sensor/green_house_sensor.ino`) and the
contact-sensing variant (`unnamed/part_001`), together with theorems about
the retry behaviour, power discipline and numeric computations of the code.

Conventions used throughout:
machine integers are modelled as `Nat`/`Int`, with explicit wrapping
(`mod 2^16`) where a narrowing store matters; the AVR `float` arithmetic of
the greenhouse variant is modelled as exact rational arithmetic (`ℚ`), with
the C float-to-int cast modelled as truncation toward zero; interaction with
the hardware (radio module, GPIO pins, the watchdog sleep primitive and the
pin-change interrupt) is modelled as explicit event traces and explicit
state passing. Unbounded `while`/`for` loops of the source are modelled as
fuelled recursions, quantified over all fuel values.
-/

namespace TinySensors

/-- Retry bound from the sketches: `#define RETRY_LIMIT 5`. -/
def RETRY_LIMIT : Nat := 5

/-- Radio events emitted by `rfwrite`. `wake` is `rf12_sleep(-1)`, `send` is
the `rf12_sendStart`/`rf12_sendWait(2)` transmission, `sleepRf` is
`rf12_sleep(0)`, and `backoff` is the `Sleepy::loseSomeTime(RETRY_PERIOD * …)`
retry pause. The `rf12_canSend` drain loop and `waitForAck` touch neither the
radio power state nor the attempt count; the outcome of `waitForAck` is
abstracted into the `ack` parameter below. -/
inductive RfEv
  | wake
  | send
  | sleepRf
  | backoff
deriving DecidableEq, Repr

/-- Events of one attempt body of the `USE_ACK` loop, in source order:
`rf12_sleep(-1); while (!rf12_canSend()) rf12_recvDone(); rf12_sendStart(…);
rf12_sendWait(2); byte acked = waitForAck(); rf12_sleep(0);`. -/
def rfAttemptEvs : List RfEv := [RfEv.wake, RfEv.send, RfEv.sleepRf]

/-- The `USE_ACK` branch of `rfwrite`:
`for (byte i = 0; i <= RETRY_LIMIT; ++i) { …; if (acked) return;
Sleepy::loseSomeTime(RETRY_PERIOD * 1000); }`.
`ack i` says whether `waitForAck` returned 1 on the attempt with loop index
`i`; `fuel` is the number of loop iterations the loop condition still allows
(`RETRY_LIMIT + 1 - i`). The returned Bool says whether the payload was
delivered, that is whether the loop exited through `if (acked) { return; }`.
In every non-acked iteration the backoff pause runs before the loop condition
is tested again, also in the last one. -/
def rfwriteAckGo (ack : Nat → Bool) : Nat → Nat → List RfEv × Bool
  | _, 0 => ([], false)
  | i, fuel + 1 =>
    if ack i then (rfAttemptEvs, true)
    else
      let r := rfwriteAckGo ack (i + 1) fuel
      (rfAttemptEvs ++ RfEv.backoff :: r.1, r.2)

/-- `rfwrite` with `USE_ACK` defined (basic and contact-sensing variants). -/
def rfwriteAck (ack : Nat → Bool) : List RfEv × Bool :=
  rfwriteAckGo ack 0 (RETRY_LIMIT + 1)

/-- The `#else` branch of `rfwrite` (greenhouse variant, where `USE_ACK` is
commented out): wake, one send, `rf12_sleep(0)`, return. -/
def rfwriteNoAck : List RfEv := [RfEv.wake, RfEv.send, RfEv.sleepRf]

/-- Number of transmission attempts in a trace: the number of
`rf12_sendStart` events. -/
def sendCount (t : List RfEv) : Nat := t.count RfEv.send

/-- Radio power state (`true` = awake) after running a trace from power
state `s`: `rf12_sleep(-1)` wakes the module, `rf12_sleep(0)` puts it to
sleep, the other events leave the power state alone. -/
def radioAwake (t : List RfEv) (s : Bool) : Bool :=
  t.foldl (fun st e =>
    match e with
    | RfEv.wake => true
    | RfEv.sleepRf => false
    | _ => st) s

/-- Checks that every `send` event of a trace is immediately followed by a
`sleepRf` event: the attempt's `rf12_sleep(0)` runs before anything acts on
the attempt's outcome (the `if (acked) return;`, the backoff, the loop exit). -/
def sendThenSleep : List RfEv → Bool
  | [] => true
  | [RfEv.send] => false
  | RfEv.send :: e :: rest => (e == RfEv.sleepRf) && sendThenSleep (e :: rest)
  | _ :: rest => sendThenSleep rest

theorem sendCount_attempt_prepend (l : List RfEv) :
    sendCount (rfAttemptEvs ++ RfEv.backoff :: l) = sendCount l + 1 := by
  simp [sendCount, rfAttemptEvs, List.count_append, List.count_cons]

theorem rfwriteAckGo_allFail (ack : Nat → Bool) :
    ∀ fuel i, (∀ j, j < fuel → ack (i + j) = false) →
      sendCount (rfwriteAckGo ack i fuel).1 = fuel ∧
        (rfwriteAckGo ack i fuel).2 = false := by
  intro fuel
  induction fuel with
  | zero => exact fun i _ => ⟨rfl, rfl⟩
  | succ fuel ih =>
    intro i h
    have h0 : ack i = false := by simpa using h 0 (Nat.succ_pos fuel)
    have ihr := ih (i + 1) (fun j hj => by
      have hh := h (j + 1) (Nat.succ_lt_succ hj)
      simpa [Nat.add_assoc, Nat.add_comm j 1] using hh)
    refine ⟨?_, ?_⟩
    · simp only [rfwriteAckGo, h0, if_false, Bool.false_eq_true]
      rw [sendCount_attempt_prepend, ihr.1]
    · simp only [rfwriteAckGo, h0, if_false, Bool.false_eq_true]
      exact ihr.2

theorem rfwriteAckGo_firstAck (ack : Nat → Bool) :
    ∀ d fuel i, d < fuel → (∀ j, j < d → ack (i + j) = false) →
      ack (i + d) = true →
      sendCount (rfwriteAckGo ack i fuel).1 = d + 1 ∧
        (rfwriteAckGo ack i fuel).2 = true := by
  intro d
  induction d with
  | zero =>
    intro fuel i hd _ hs
    match fuel, hd with
    | fuel + 1, _ =>
      have h0 : ack i = true := by simpa using hs
      refine ⟨?_, ?_⟩
      · simp [rfwriteAckGo, h0, sendCount, rfAttemptEvs]
      · simp [rfwriteAckGo, h0]
  | succ d ih =>
    intro fuel i hd hf hs
    match fuel, hd with
    | fuel + 1, hd =>
      have h0 : ack i = false := by simpa using hf 0 (Nat.succ_pos d)
      have ihr := ih fuel (i + 1) (Nat.lt_of_succ_lt_succ hd)
        (fun j hj => by
          have hh := hf (j + 1) (Nat.succ_lt_succ hj)
          simpa [Nat.add_assoc, Nat.add_comm j 1] using hh)
        (by simpa [Nat.add_assoc, Nat.add_comm d 1] using hs)
      refine ⟨?_, ?_⟩
      · simp only [rfwriteAckGo, h0, if_false, Bool.false_eq_true]
        rw [sendCount_attempt_prepend, ihr.1]
      · simp only [rfwriteAckGo, h0, if_false, Bool.false_eq_true]
        exact ihr.2

/-- C1: in the acknowledged `rfwrite`, if no attempt is acknowledged then
exactly `RETRY_LIMIT + 1 = 6` transmission attempts are performed and the
outcome is not-delivered; if the acknowledgement arrives on attempt `k`
(1-based, `1 ≤ k ≤ RETRY_LIMIT + 1`), exactly `k` transmission attempts are
performed and the outcome is delivered. -/
theorem rfwrite_bounded_retry (ack : Nat → Bool) :
    ((∀ i, i ≤ RETRY_LIMIT → ack i = false) →
      sendCount (rfwriteAck ack).1 = 6 ∧ (rfwriteAck ack).2 = false)
    ∧ (∀ k, 1 ≤ k → k ≤ RETRY_LIMIT + 1 →
        (∀ j, j < k - 1 → ack j = false) → ack (k - 1) = true →
        sendCount (rfwriteAck ack).1 = k ∧ (rfwriteAck ack).2 = true) := by
  constructor
  · intro h
    have hh := rfwriteAckGo_allFail ack (RETRY_LIMIT + 1) 0
      (fun j hj => by
        have := h j (Nat.lt_succ_iff.mp (by simpa using hj))
        simpa using this)
    simpa [rfwriteAck, RETRY_LIMIT] using hh
  · intro k hk1 hk2 hfail hsucc
    have hh := rfwriteAckGo_firstAck ack (k - 1) (RETRY_LIMIT + 1) 0
      (by simp [RETRY_LIMIT] at hk2 ⊢; omega)
      (fun j hj => by simpa using hfail j hj)
      (by simpa using hsucc)
    rw [Nat.sub_add_cancel hk1] at hh
    simpa [rfwriteAck] using hh

/-- Witness for C1: with a link that acknowledges only the attempt with loop
index 2, the acknowledged `rfwrite` performs exactly 3 attempts and delivers. -/
theorem rfwrite_bounded_retry_witness :
    sendCount (rfwriteAck (fun i => decide (i = 2))).1 = 3 ∧
      (rfwriteAck (fun i => decide (i = 2))).2 = true :=
  (rfwrite_bounded_retry (fun i => decide (i = 2))).2 3 (by decide) (by decide)
    (fun j hj => by interval_cases j <;> rfl) (by rfl)

theorem radioAwake_cons_backoff (l : List RfEv) (s : Bool) :
    radioAwake (RfEv.backoff :: l) s = radioAwake l s := by
  simp [radioAwake]

theorem radioAwake_attempt_prepend (l : List RfEv) (s : Bool) :
    radioAwake (rfAttemptEvs ++ l) s = radioAwake l false := by
  simp [radioAwake, rfAttemptEvs, List.foldl_append]

theorem rfwriteAckGo_radio_off (ack : Nat → Bool) :
    ∀ fuel i s, radioAwake (rfwriteAckGo ack i (fuel + 1)).1 s = false := by
  intro fuel
  induction fuel with
  | zero =>
    intro i s
    cases h : ack i <;>
      simp [rfwriteAckGo, h, radioAwake, rfAttemptEvs]
  | succ fuel ih =>
    intro i s
    cases h : ack i
    · simp only [rfwriteAckGo, h, if_false, Bool.false_eq_true]
      rw [radioAwake_attempt_prepend, radioAwake_cons_backoff]
      exact ih (i + 1) false
    · simp [rfwriteAckGo, h, radioAwake, rfAttemptEvs]

theorem rfwriteAckGo_sendThenSleep (ack : Nat → Bool) :
    ∀ fuel i, sendThenSleep (rfwriteAckGo ack i fuel).1 = true := by
  intro fuel
  induction fuel with
  | zero => intro i; rfl
  | succ fuel ih =>
    intro i
    cases h : ack i
    · simp only [rfwriteAckGo, h, if_false, Bool.false_eq_true]
      simpa [rfAttemptEvs, sendThenSleep] using ih (i + 1)
    · simp [rfwriteAckGo, h, rfAttemptEvs, sendThenSleep]

/-- C2: after every completed `rfwrite` call, acknowledged or not and with
acknowledgements enabled or not, the radio module is back in its low-power
sleep state (from any starting power state); and in the acknowledged loop
every transmission attempt executes its `rf12_sleep(0)` immediately after
the send completes, before the attempt's outcome is acted on. -/
theorem rfwrite_radio_restored (ack : Nat → Bool) (s0 s1 : Bool) :
    radioAwake (rfwriteAck ack).1 s0 = false
    ∧ radioAwake rfwriteNoAck s1 = false
    ∧ sendThenSleep (rfwriteAck ack).1 = true := by
  refine ⟨?_, ?_, ?_⟩
  · exact rfwriteAckGo_radio_off ack RETRY_LIMIT 0 s0
  · rfl
  · exact rfwriteAckGo_sendThenSleep ack (RETRY_LIMIT + 1) 0

/-- A successful single-shot reading of the DHT driver: the values of
`DHT.temperature` and `DHT.humidity` left behind by a `DHTLIB_OK` return of
`DHT.read22`. The AVR floats are modelled as exact rationals. -/
structure Reading where
  temp : ℚ
  hum : ℚ
deriving DecidableEq, Repr

/-- Truncation of a rational toward zero: the behaviour of the C cast from a
floating-point value to an integer type. -/
def truncToInt (q : ℚ) : ℤ := if 0 ≤ q then ⌊q⌋ else ⌈q⌉

/-- The sensor acquisition loop
`while (DHT.read22(pin) != DHTLIB_OK) { Sleepy::loseSomeTime(…); }` of the
`loop`/`handleInterrupt` bodies. `drv n` is the outcome of invocation number
`n` (0-based) of `DHT.read22` on the pin: `none` for a non-`DHTLIB_OK`
return, `some r` for a successful read. The loop in the source has no upper
bound, so it is modelled with explicit fuel; the result is the number of
driver invocations performed, paired with the successful reading, or `none`
when the fuel ran out before any success. -/
def acquireGo (drv : Nat → Option Reading) : Nat → Nat → Option (Nat × Reading)
  | _, 0 => none
  | i, fuel + 1 =>
    match drv i with
    | some r => some (i + 1, r)
    | none => acquireGo drv (i + 1) fuel

/-- The acquisition loop followed by the stores
`tinytx.temp = DHT.temperature * 100; tinytx.humidity = DHT.humidity * 100;`:
the float products are assigned to `int` fields, truncating toward zero.
Returns the invocation count and the two stored fields. -/
def acquireAndStore (drv : Nat → Option Reading) (fuel : Nat) :
    Option (Nat × ℤ × ℤ) :=
  match acquireGo drv 0 fuel with
  | some (n, r) => some (n, truncToInt (r.temp * 100), truncToInt (r.hum * 100))
  | none => none

theorem acquireGo_firstSuccess (drv : Nat → Option Reading) (r : Reading) :
    ∀ N fuel i, (∀ j, j < N → drv (i + j) = none) → drv (i + N) = some r →
      N < fuel → acquireGo drv i fuel = some (i + N + 1, r) := by
  intro N
  induction N with
  | zero =>
    intro fuel i _ hs hf
    match fuel, hf with
    | fuel + 1, _ =>
      have h0 : drv i = some r := by simpa using hs
      simp [acquireGo, h0]
  | succ N ih =>
    intro fuel i hfail hs hf
    match fuel, hf with
    | fuel + 1, hf =>
      have h0 : drv i = none := by simpa using hfail 0 (Nat.succ_pos N)
      have ihr := ih fuel (i + 1)
        (fun j hj => by
          have hh := hfail (j + 1) (Nat.succ_lt_succ hj)
          simpa [Nat.add_assoc, Nat.add_comm j 1] using hh)
        (by simpa [Nat.add_assoc, Nat.add_comm N 1] using hs)
        (Nat.lt_of_succ_lt_succ hf)
      have : acquireGo drv i (fuel + 1) = acquireGo drv (i + 1) fuel := by
        simp [acquireGo, h0]
      rw [show i + 1 + N + 1 = i + (N + 1) + 1 from by omega] at ihr
      rw [this, ihr]

theorem acquireGo_allFail (drv : Nat → Option Reading)
    (hfail : ∀ j, drv j = none) :
    ∀ fuel i, acquireGo drv i fuel = none := by
  intro fuel
  induction fuel with
  | zero => intro i; rfl
  | succ fuel ih =>
    intro i
    simp [acquireGo, hfail i, ih (i + 1)]

/-- C3: for a sensor driver that fails the single-shot read `N` times and
then succeeds, the acquisition loop invokes the driver exactly `N + 1` times
(for every fuel bound large enough to contain the run) and stores the
successful reading's temperature and humidity, each scaled by 100, in the
record; for a driver that always fails, no fuel bound makes the loop return
(the source loop never terminates). -/
theorem acquire_poll_count (drv : Nat → Option Reading) :
    (∀ N t u, (∀ j, j < N → drv j = none) → drv N = some ⟨t, u⟩ →
      ∀ fuel, N < fuel →
        acquireAndStore drv fuel =
          some (N + 1, truncToInt (t * 100), truncToInt (u * 100)))
    ∧ ((∀ j, drv j = none) → ∀ fuel, acquireAndStore drv fuel = none) := by
  constructor
  · intro N t u hfail hs fuel hf
    have hh := acquireGo_firstSuccess drv ⟨t, u⟩ N fuel 0
      (fun j hj => by simpa using hfail j hj) (by simpa using hs) hf
    simp [acquireAndStore, hh]
  · intro hfail fuel
    simp [acquireAndStore, acquireGo_allFail drv hfail fuel 0]

/-- Witness for C3: a driver that fails twice and then reads 22.5 °C and
50.7 %RH makes the loop invoke the driver exactly 3 times and store 2250
and 5070. -/
theorem acquire_poll_count_witness :
    acquireAndStore
      (fun n => if n = 2 then some ⟨45/2, 507/10⟩ else none) 4 =
      some (3, 2250, 5070) := by
  have hh := (acquire_poll_count
      (fun n => if n = 2 then some ⟨45/2, 507/10⟩ else none)).1 2 (45/2) (507/10)
    (fun j hj => by interval_cases j <;> rfl) (by norm_num) 4 (by norm_num)
  rw [hh]
  norm_num [truncToInt]

/-- The raw ADC value assembled in `readVcc`:
`result = ADCL; result |= ADCH << 8;`. -/
def adcRaw (adcl adch : Nat) : Nat := adcl ||| (adch <<< 8)

/-- The reference-ratio `readVcc` of the basic and contact-sensing variants:
after the conversion completes, `result = 1126400L / result;` back-calculates
Vcc in millivolts from the raw 10-bit reading of the internal 1.1 V reference
against Vcc. C `long` division truncates toward zero, which on these
nonnegative operands is `Nat` division. The ADC enable/disable writes around
the division touch no data. -/
def readVcc (raw : Nat) : Nat := 1126400 / raw

/-- C4: for every raw reading `R` with `1 ≤ R ≤ 1023`, the reference-ratio
`readVcc` computes exactly `⌊1126400 / R⌋` millivolts. -/
theorem readVcc_floor (R : Nat) (h1 : 1 ≤ R) (h2 : R ≤ 1023) :
    (readVcc R : ℤ) = ⌊(1126400 : ℚ) / (R : ℚ)⌋ := by
  have hh := Rat.floor_natCast_div_natCast 1126400 R
  rw [show ((1126400 : ℕ) : ℚ) = (1126400 : ℚ) from by norm_num] at hh
  rw [hh]
  show ((1126400 / R : ℕ) : ℤ) = _
  rw [Int.ofNat_ediv]

/-- Witness for C4 at raw reading 3: `readVcc 3 = 375466 = ⌊1126400 / 3⌋`. -/
theorem readVcc_floor_witness :
    (readVcc 3 : ℤ) = ⌊(1126400 : ℚ) / ((3 : ℕ) : ℚ)⌋ ∧ readVcc 3 = 375466 :=
  ⟨readVcc_floor 3 (by norm_num) (by norm_num), by decide⟩

/-- Divider constants of the greenhouse sketch: `#define VMIN 0.5`,
`#define VMAX 3`, `#define R1 1e6`, `#define R2 600e3`, `#define VREF 1.1`.
The AVR float values are modelled as the exact rationals they denote. -/
def VMIN : ℚ := 1 / 2

def VMAX : ℚ := 3

def R1 : ℚ := 1000000

def R2 : ℚ := 600000

def VREF : ℚ := 11 / 10

/-- The raw averaging of the greenhouse `readVcc`: five `analogRead(BATT_PIN)`
samples accumulated into an `int` and then divided by 5 with C integer
division (`sensorValue /= 5;`), which truncates; on these nonnegative sums
that is `Nat` division. -/
def ghAverageRaw (s1 s2 s3 s4 s5 : Nat) : Nat := (s1 + s2 + s3 + s4 + s5) / 5

/-- `float Vmax = ((R1 + R2) / R2) * VREF;` of the greenhouse `readVcc`. -/
def ghVmaxV : ℚ := ((R1 + R2) / R2) * VREF

/-- The voltage returned by the greenhouse `readVcc`:
`float Vbat = (Vmax / 1023) * sensorValue; return Vbat;` applied to the
truncated average of the five samples. -/
def ghVbat (s1 s2 s3 s4 s5 : Nat) : ℚ :=
  (ghVmaxV / 1023) * (ghAverageRaw s1 s2 s3 s4 s5 : ℚ)

/-- The caller's store `tinytx.supplyV = static_cast<int>(Vbat * 1000);`. -/
def ghSupplyV (s1 s2 s3 s4 s5 : Nat) : ℤ :=
  truncToInt (ghVbat s1 s2 s3 s4 s5 * 1000)

/-- The caller's store
`tinytx.supplyVPcnt = static_cast<int>(((Vbat - VMIN) / (VMAX - VMIN)) * 10000.);`. -/
def ghSupplyVPcnt (s1 s2 s3 s4 s5 : Nat) : ℤ :=
  truncToInt (((ghVbat s1 s2 s3 s4 s5 - VMIN) / (VMAX - VMIN)) * 10000)

/-- The voltage formula in the words of the spec sentence behind C5:
`((R1+R2)/R2 × Vref / 1023) × round(mean(s1..s5))`, with `mean` the exact
rational mean of the five samples and `round` rounding to the nearest
integer. -/
def specVbatRound (s1 s2 s3 s4 s5 : Nat) : ℚ :=
  ((R1 + R2) / R2 * VREF / 1023) *
    ((round (((s1 + s2 + s3 + s4 + s5 : Nat) : ℚ) / 5) : ℤ) : ℚ)

/-- The same spec formula with the rounding replaced by the floor that the C
integer division actually performs on the five-sample mean. -/
def specVbatFloor (s1 s2 s3 s4 s5 : Nat) : ℚ :=
  ((R1 + R2) / R2 * VREF / 1023) *
    ((⌊(((s1 + s2 + s3 + s4 + s5 : Nat) : ℚ)) / 5⌋ : ℤ) : ℚ)

/-- The percentage formula in the words of the spec:
`(voltage − Vmin)/(Vmax − Vmin) × 10000` rounded toward zero. -/
def specPcnt (v : ℚ) : ℤ := truncToInt ((v - VMIN) / (VMAX - VMIN) * 10000)

/-- Counterexample to C5 as stated: for the five raw samples (1,1,1,1,0) the
code's averaged voltage is 0, because the truncating division
`sensorValue /= 5` turns the sum 4 into 0, while the claimed formula with
`round(mean) = round(4/5) = 1` gives a nonzero voltage. -/
theorem gh_vbat_round_counterexample :
    ghVbat 1 1 1 1 0 = 0 ∧ specVbatRound 1 1 1 1 0 ≠ 0 := by
  constructor
  · norm_num [ghVbat, ghVmaxV, ghAverageRaw, R1, R2, VREF]
  · have hr : round (((1 + 1 + 1 + 1 + 0 : Nat) : ℚ) / 5) = 1 := by
      rw [round_eq]
      norm_num [Int.floor_eq_iff]
    norm_num [specVbatRound, hr, R1, R2, VREF]

theorem truncToInt_le (q : ℚ) (b : ℤ) (hb : q ≤ (b : ℚ)) : truncToInt q ≤ b := by
  unfold truncToInt
  split
  · have hh := Int.floor_le_floor hb
    rwa [Int.floor_intCast] at hh
  · exact Int.ceil_le.mpr hb

theorem le_truncToInt (q : ℚ) (a : ℤ) (ha : (a : ℚ) ≤ q) : a ≤ truncToInt q := by
  unfold truncToInt
  split
  · exact Int.le_floor.mpr ha
  · have hh := le_trans ha (Int.le_ceil q)
    exact_mod_cast hh

theorem ghAverageRaw_le (s1 s2 s3 s4 s5 : Nat) (h1 : s1 ≤ 1023) (h2 : s2 ≤ 1023)
    (h3 : s3 ≤ 1023) (h4 : s4 ≤ 1023) (h5 : s5 ≤ 1023) :
    ghAverageRaw s1 s2 s3 s4 s5 ≤ 1023 := by
  unfold ghAverageRaw
  omega

theorem ghVbat_bounds (s1 s2 s3 s4 s5 : Nat) (h1 : s1 ≤ 1023) (h2 : s2 ≤ 1023)
    (h3 : s3 ≤ 1023) (h4 : s4 ≤ 1023) (h5 : s5 ≤ 1023) :
    0 ≤ ghVbat s1 s2 s3 s4 s5 ∧ ghVbat s1 s2 s3 s4 s5 ≤ 44 / 15 := by
  have ha := ghAverageRaw_le s1 s2 s3 s4 s5 h1 h2 h3 h4 h5
  have haq : ((ghAverageRaw s1 s2 s3 s4 s5 : ℚ)) ≤ 1023 := by exact_mod_cast ha
  have haq0 : (0 : ℚ) ≤ ((ghAverageRaw s1 s2 s3 s4 s5 : ℚ)) := by positivity
  constructor
  · unfold ghVbat ghVmaxV
    rw [R1, R2, VREF]
    positivity
  · unfold ghVbat ghVmaxV
    rw [R1, R2, VREF]
    nlinarith [haq, haq0]

/-- Wrap of a value stored into a signed 16-bit `int` field on the AVR
target: reduce modulo 2^16 into the interval [-32768, 32767]. -/
def toInt16 (v : ℤ) : ℤ := (v + 32768) % 65536 - 32768

theorem toInt16_eq_self (v : ℤ) (h1 : -32768 ≤ v) (h2 : v ≤ 32767) :
    toInt16 v = v := by
  unfold toInt16
  rw [Int.emod_eq_of_lt (by omega) (by omega)]
  omega

theorem ghSupplyVPcnt_bounds (s1 s2 s3 s4 s5 : Nat) (h1 : s1 ≤ 1023)
    (h2 : s2 ≤ 1023) (h3 : s3 ≤ 1023) (h4 : s4 ≤ 1023) (h5 : s5 ≤ 1023) :
    -2000 ≤ ghSupplyVPcnt s1 s2 s3 s4 s5 ∧ ghSupplyVPcnt s1 s2 s3 s4 s5 ≤ 9734 := by
  have hb := ghVbat_bounds s1 s2 s3 s4 s5 h1 h2 h3 h4 h5
  unfold ghSupplyVPcnt
  have hq : (ghVbat s1 s2 s3 s4 s5 - VMIN) / (VMAX - VMIN) * 10000 =
      4000 * ghVbat s1 s2 s3 s4 s5 - 2000 := by
    rw [VMIN, VMAX]; ring
  rw [hq]
  constructor
  · refine le_truncToInt _ _ ?_
    push_cast
    linarith [hb.1]
  · refine truncToInt_le _ _ ?_
    push_cast
    linarith [hb.2]

theorem ghSupplyVPcnt_allZero : ghSupplyVPcnt 0 0 0 0 0 = -2000 := by
  have hv : ghVbat 0 0 0 0 0 = 0 := by
    norm_num [ghVbat, ghAverageRaw]
  unfold ghSupplyVPcnt
  rw [hv, VMIN, VMAX]
  rw [show ((0 : ℚ) - 1 / 2) / (3 - 1 / 2) * 10000 = ((-2000 : ℤ) : ℚ) from by norm_num]
  unfold truncToInt
  rw [if_neg (by norm_num), Int.ceil_intCast]

/-- C5 amended: for five raw samples each in [0,1023], the greenhouse
averaged voltage equals `((R1+R2)/R2 × Vref / 1023) × ⌊mean(s1..s5)⌋` — the
truncated integer mean, not the rounded mean claimed by the spec — and the
reported percentage field equals `(voltage − Vmin)/(Vmax − Vmin) × 10000`
rounded toward zero, with no clamping applied even when the result lies
outside [0,10000]: the all-zero sample vector produces −2000 in the field. -/
theorem gh_divider_average_amended (s1 s2 s3 s4 s5 : Nat) (h1 : s1 ≤ 1023)
    (h2 : s2 ≤ 1023) (h3 : s3 ≤ 1023) (h4 : s4 ≤ 1023) (h5 : s5 ≤ 1023) :
    ghVbat s1 s2 s3 s4 s5 = specVbatFloor s1 s2 s3 s4 s5
    ∧ ghSupplyVPcnt s1 s2 s3 s4 s5 = specPcnt (ghVbat s1 s2 s3 s4 s5)
    ∧ ghSupplyVPcnt 0 0 0 0 0 = -2000 := by
  refine ⟨?_, rfl, ghSupplyVPcnt_allZero⟩
  unfold ghVbat ghVmaxV specVbatFloor ghAverageRaw
  rw [show ((5 : ℚ)) = ((5 : ℕ) : ℚ) from by norm_num,
    Rat.floor_natCast_div_natCast (s1 + s2 + s3 + s4 + s5) 5,
    ← Int.ofNat_ediv (s1 + s2 + s3 + s4 + s5) 5, Int.cast_natCast]

/-- Witness for the amended C5 at the all-zero sample vector. -/
theorem gh_divider_average_amended_witness :
    ghVbat 0 0 0 0 0 = specVbatFloor 0 0 0 0 0
    ∧ ghSupplyVPcnt 0 0 0 0 0 = specPcnt (ghVbat 0 0 0 0 0)
    ∧ ghSupplyVPcnt 0 0 0 0 0 = -2000 :=
  gh_divider_average_amended 0 0 0 0 0 (by norm_num) (by norm_num) (by norm_num)
    (by norm_num) (by norm_num)

/-- C9: the supply-voltage computations validate nothing. The reference-ratio
back-calculation applies the unguarded division `1126400 / R` to every raw
ADC value, including the assembled all-zero reading (no branch intercepts a
zero divisor); and the divider percentage has no range check: for every
sample vector the computed percentage is stored into the 16-bit record field
unchanged, and the all-zero vector produces the out-of-range value −2000. -/
theorem supply_monitor_unvalidated (s1 s2 s3 s4 s5 : Nat) (h1 : s1 ≤ 1023)
    (h2 : s2 ≤ 1023) (h3 : s3 ≤ 1023) (h4 : s4 ≤ 1023) (h5 : s5 ≤ 1023) :
    readVcc (adcRaw 0 0) = 1126400 / 0
    ∧ toInt16 (ghSupplyVPcnt s1 s2 s3 s4 s5) = ghSupplyVPcnt s1 s2 s3 s4 s5
    ∧ ghSupplyVPcnt 0 0 0 0 0 = -2000
    ∧ ¬(0 ≤ (-2000 : ℤ) ∧ (-2000 : ℤ) ≤ 10000) := by
  have hb := ghSupplyVPcnt_bounds s1 s2 s3 s4 s5 h1 h2 h3 h4 h5
  exact ⟨rfl, toInt16_eq_self _ (by omega) (by omega), ghSupplyVPcnt_allZero, by omega⟩

/-- Witness for C9 at the all-1023 sample vector. -/
theorem supply_monitor_unvalidated_witness :
    readVcc (adcRaw 0 0) = 1126400 / 0
    ∧ toInt16 (ghSupplyVPcnt 1023 1023 1023 1023 1023) =
        ghSupplyVPcnt 1023 1023 1023 1023 1023
    ∧ ghSupplyVPcnt 0 0 0 0 0 = -2000
    ∧ ¬(0 ≤ (-2000 : ℤ) ∧ (-2000 : ℤ) ≤ 10000) :=
  supply_monitor_unvalidated 1023 1023 1023 1023 1023 (by norm_num) (by norm_num)
    (by norm_num) (by norm_num) (by norm_num)

/-- C10: `readVcc` returns values up to 1126400 mV (at raw reading 1) as a
`long`, but the payload's `supplyV` field is a signed 16-bit `int`: for every
raw reading `1 ≤ R ≤ 34` the computed value exceeds 32767, so the store into
the field wraps it modulo 2^16 and the transmitted value differs from the
computed voltage; at `R = 34` the stored value is even negative (−32407). -/
theorem supplyV_wraps (R : Nat) (hR1 : 1 ≤ R) (hR2 : R ≤ 34) :
    32767 < (readVcc R : ℤ)
    ∧ toInt16 (readVcc R : ℤ) ≠ (readVcc R : ℤ)
    ∧ readVcc 1 = 1126400
    ∧ toInt16 (readVcc 34 : ℤ) = -32407 := by
  have hmono : readVcc 34 ≤ readVcc R := Nat.div_le_div_left hR2 (by omega)
  have h34 : readVcc 34 = 33129 := by decide
  have hgt : 32767 < (readVcc R : ℤ) := by
    rw [h34] at hmono
    exact_mod_cast Nat.lt_of_lt_of_le (by norm_num) hmono
  refine ⟨hgt, ?_, by decide, by decide⟩
  intro heq
  have hlo := Int.emod_nonneg ((readVcc R : ℤ) + 32768) (by norm_num : (65536 : ℤ) ≠ 0)
  have hhi := Int.emod_lt_of_pos ((readVcc R : ℤ) + 32768) (by norm_num : (0 : ℤ) < 65536)
  unfold toInt16 at heq
  omega

/-- Witness for C10 at raw reading 2: the computed 563200 mV exceeds 32767
and does not survive the 16-bit store. -/
theorem supplyV_wraps_witness :
    32767 < (readVcc 2 : ℤ)
    ∧ toInt16 (readVcc 2 : ℤ) ≠ (readVcc 2 : ℤ)
    ∧ readVcc 1 = 1126400
    ∧ toInt16 (readVcc 34 : ℤ) = -32407 :=
  supplyV_wraps 2 (by norm_num) (by norm_num)

/-- Events of the contact-sensing sequencer (`unnamed/part_001`).
`clearFlag` is an assignment `gotPCI = false;`, `cycle` is one full
`handleInterrupt()` call (acquire both sensors, read the door pin, power the
rail down, measure Vcc, transmit), and `chunk` is one
`Sleepy::loseSomeTime(MINUTE)` suspension of at most 60 seconds. -/
inductive SeqEv
  | clearFlag
  | cycle
  | chunk
deriving DecidableEq, Repr

/-- The interval-sleep loop
`for (int i = 0; i < 5 && !gotPCI; i++) Sleepy::loseSomeTime(MINUTE);`.
The loop condition reads `gotPCI` before each chunk; during chunk number `i`
the pin-change handler `ISR(PCINT0_vect) { gotPCI = true; }` fires exactly
when `arrive i` is true. `fuel` is the number of chunks the `i < 5` bound
still allows. Returns the chunk events slept and the final flag value. -/
def sleepLoopGo (arrive : Nat → Bool) : Bool → Nat → Nat → List SeqEv × Bool
  | g, _, 0 => ([], g)
  | g, i, fuel + 1 =>
    if g then ([], g)
    else
      let r := sleepLoopGo arrive (arrive i) (i + 1) fuel
      (SeqEv.chunk :: r.1, r.2)

/-- A full five-chunk interval sleep entered with flag value `g`. -/
def sleepPhase (arrive : Nat → Bool) (g : Bool) : List SeqEv × Bool :=
  sleepLoopGo arrive g 0 5

/-- One `gotPCI = false; handleInterrupt(); for (…) Sleepy::loseSomeTime(MINUTE);`
round of the contact-sensing `loop()`. `arrH` says whether the pin-change
interrupt fires during the `handleInterrupt()` call (leaving the flag set
when the sleep starts), `arrS i` whether it fires during sleep chunk `i`. -/
def seqRound (arrH : Bool) (arrS : Nat → Bool) : List SeqEv × Bool :=
  let s := sleepPhase arrS arrH
  (SeqEv.clearFlag :: SeqEv.cycle :: s.1, s.2)

/-- One iteration of `loop()` of the contact-sensing variant, entered with
`gotPCI = g0`:
`if (gotPCI) { gotPCI = false; handleInterrupt(); for (…) sleep; }
gotPCI = false; handleInterrupt(); for (…) sleep;`.
The extra round runs first when the flag was set at entry; the unconditional
round always runs. -/
def loopIter (g0 : Bool) (aH1 aH2 : Bool) (aS1 aS2 : Nat → Bool) :
    List SeqEv × Bool :=
  if g0 then
    let r1 := seqRound aH1 aS1
    let r2 := seqRound aH2 aS2
    (r1.1 ++ r2.1, r2.2)
  else
    let r2 := seqRound aH2 aS2
    (r2.1, r2.2)

/-- Checks that every `cycle` event of a trace is immediately preceded by a
`clearFlag` event: the pending-event flag is cleared before handling begins,
never after. -/
def clearBeforeCycle : List SeqEv → Bool
  | [] => true
  | SeqEv.clearFlag :: SeqEv.cycle :: rest => clearBeforeCycle rest
  | SeqEv.cycle :: _ => false
  | _ :: rest => clearBeforeCycle rest

/-- Number of full acquire+transmit cycles in a trace. -/
def cycleCount (t : List SeqEv) : Nat := t.count SeqEv.cycle

theorem sleepLoopGo_chunks (arrive : Nat → Bool) :
    ∀ fuel g i, ∃ n, (sleepLoopGo arrive g i fuel).1 = List.replicate n SeqEv.chunk := by
  intro fuel
  induction fuel with
  | zero => exact fun g i => ⟨0, rfl⟩
  | succ fuel ih =>
    intro g i
    cases g
    · obtain ⟨n, hn⟩ := ih (arrive i) (i + 1)
      exact ⟨n + 1, by simp [sleepLoopGo, hn, List.replicate_succ]⟩
    · exact ⟨0, by simp [sleepLoopGo]⟩

theorem clearBeforeCycle_chunks (rest : List SeqEv) :
    ∀ n, clearBeforeCycle (List.replicate n SeqEv.chunk ++ rest) =
      clearBeforeCycle rest := by
  intro n
  induction n with
  | zero => rfl
  | succ n ih => simpa [List.replicate_succ, clearBeforeCycle] using ih

theorem cycleCount_chunks (rest : List SeqEv) (n : Nat) :
    cycleCount (List.replicate n SeqEv.chunk ++ rest) = cycleCount rest := by
  simp [cycleCount, List.count_append, List.count_replicate]

/-- C6: in every iteration of the contact-sensing main loop, the pending
flag is cleared immediately before each handling begins; the iteration
performs a full acquire+transmit cycle followed by the interval sleep (five
60-second chunks when no event arrives); and the flag captured at entry
changes only how many clear+cycle+sleep rounds the iteration performs (two
instead of one), not what a cycle does: the trace is the plain round trace,
prefixed by one extra round exactly when the flag was set. -/
theorem seq_loop_cycle (g0 aH1 aH2 : Bool) (aS1 aS2 : Nat → Bool) :
    clearBeforeCycle (loopIter g0 aH1 aH2 aS1 aS2).1 = true
    ∧ cycleCount (loopIter g0 aH1 aH2 aS1 aS2).1 = (if g0 then 2 else 1)
    ∧ (loopIter g0 aH1 aH2 aS1 aS2).1 =
        (if g0 then (seqRound aH1 aS1).1 else []) ++ (seqRound aH2 aS2).1
    ∧ seqRound false (fun _ => false) =
        (SeqEv.clearFlag :: SeqEv.cycle :: List.replicate 5 SeqEv.chunk, false) := by
  obtain ⟨n1, hn1⟩ := sleepLoopGo_chunks aS1 5 aH1 0
  obtain ⟨n2, hn2⟩ := sleepLoopGo_chunks aS2 5 aH2 0
  have hr1 : (seqRound aH1 aS1).1 =
      SeqEv.clearFlag :: SeqEv.cycle :: List.replicate n1 SeqEv.chunk := by
    simp [seqRound, sleepPhase, hn1]
  have hr2 : (seqRound aH2 aS2).1 =
      SeqEv.clearFlag :: SeqEv.cycle :: List.replicate n2 SeqEv.chunk := by
    simp [seqRound, sleepPhase, hn2]
  refine ⟨?_, ?_, ?_, ?_⟩
  · cases g0
    · simp only [loopIter, if_false, Bool.false_eq_true, hr2]
      rw [show clearBeforeCycle
          (SeqEv.clearFlag :: SeqEv.cycle :: List.replicate n2 SeqEv.chunk) =
          clearBeforeCycle (List.replicate n2 SeqEv.chunk ++ []) from by
            simp [clearBeforeCycle]]
      rw [clearBeforeCycle_chunks]
      rfl
    · simp only [loopIter, if_true, hr1, hr2]
      rw [show clearBeforeCycle
          ((SeqEv.clearFlag :: SeqEv.cycle :: List.replicate n1 SeqEv.chunk) ++
            (SeqEv.clearFlag :: SeqEv.cycle :: List.replicate n2 SeqEv.chunk)) =
          clearBeforeCycle (List.replicate n1 SeqEv.chunk ++
            (SeqEv.clearFlag :: SeqEv.cycle :: List.replicate n2 SeqEv.chunk)) from by
            simp [clearBeforeCycle]]
      rw [clearBeforeCycle_chunks]
      rw [show clearBeforeCycle
          (SeqEv.clearFlag :: SeqEv.cycle :: List.replicate n2 SeqEv.chunk) =
          clearBeforeCycle (List.replicate n2 SeqEv.chunk ++ []) from by
            simp [clearBeforeCycle]]
      rw [clearBeforeCycle_chunks]
      rfl
  · cases g0
    · simp [loopIter, hr2, cycleCount, List.count_cons, List.count_replicate]
    · simp [loopIter, hr1, hr2, cycleCount, List.count_append, List.count_cons,
        List.count_replicate]
  · cases g0
    · simp [loopIter]
    · simp [loopIter]
  · rfl

theorem sleepLoopGo_flagTrue (arrive : Nat → Bool) :
    ∀ fuel i, sleepLoopGo arrive true i fuel = ([], true) := by
  intro fuel i
  cases fuel <;> rfl

theorem sleepLoopGo_firstArrival (arrive : Nat → Bool) :
    ∀ k i fuel, k < fuel → (∀ j, j < k → arrive (i + j) = false) →
      arrive (i + k) = true →
      sleepLoopGo arrive false i fuel =
        (List.replicate (k + 1) SeqEv.chunk, true) := by
  intro k
  induction k with
  | zero =>
    intro i fuel hk _ hs
    match fuel, hk with
    | fuel + 1, _ =>
      have h0 : arrive i = true := by simpa using hs
      simp [sleepLoopGo, h0, sleepLoopGo_flagTrue, List.replicate_succ]
  | succ k ih =>
    intro i fuel hk hf hs
    match fuel, hk with
    | fuel + 1, hk =>
      have h0 : arrive i = false := by simpa using hf 0 (Nat.succ_pos k)
      have ihr := ih (i + 1) fuel (Nat.lt_of_succ_lt_succ hk)
        (fun j hj => by
          have hh := hf (j + 1) (Nat.succ_lt_succ hj)
          simpa [Nat.add_assoc, Nat.add_comm j 1] using hh)
        (by simpa [Nat.add_assoc, Nat.add_comm k 1] using hs)
      simp [sleepLoopGo, h0, ihr, List.replicate_succ]

/-- C7: if the pin-change event first fires during sleep chunk `c` of a full
interval sleep entered with the flag clear, the loop condition observes the
flag at the end of that chunk: exactly `c + 1` of the five chunks are slept,
the remainder of the interval sleep is abandoned, and the flag is left set;
and a `loop()` iteration entered with the flag set begins with a flag-clear
and a full acquire+transmit cycle before any sleep chunk. -/
theorem seq_interrupt_latency (arrive : Nat → Bool) (c : Nat) (aH1 aH2 : Bool)
    (aS1 aS2 : Nat → Bool) :
    (c < 5 → (∀ j, j < c → arrive j = false) → arrive c = true →
      sleepPhase arrive false = (List.replicate (c + 1) SeqEv.chunk, true))
    ∧ ∃ rest, (loopIter true aH1 aH2 aS1 aS2).1 =
        SeqEv.clearFlag :: SeqEv.cycle :: rest := by
  constructor
  · intro hc hf hs
    exact sleepLoopGo_firstArrival arrive c 0 5 hc
      (fun j hj => by simpa using hf j hj) (by simpa using hs)
  · exact ⟨(sleepPhase aS1 aH1).1 ++ (seqRound aH2 aS2).1,
      by simp [loopIter, seqRound]⟩

/-- Witness for C7: with the event arriving during chunk 2, the interval
sleep stops after exactly 3 chunks with the flag set, and the next iteration
opens with clear-and-cycle. -/
theorem seq_interrupt_latency_witness :
    sleepPhase (fun i => decide (i = 2)) false =
      (List.replicate 3 SeqEv.chunk, true)
    ∧ ∃ rest, (loopIter true false false (fun _ => false) (fun _ => false)).1 =
        SeqEv.clearFlag :: SeqEv.cycle :: rest :=
  ⟨(seq_interrupt_latency (fun i => decide (i = 2)) 2 false false (fun _ => false)
      (fun _ => false)).1 (by norm_num) (fun j hj => by interval_cases j <;> rfl) rfl,
    (seq_interrupt_latency (fun i => decide (i = 2)) 2 false false (fun _ => false)
      (fun _ => false)).2⟩

/-- GPIO and phase events of one duty cycle of each variant.
`write p b` is `digitalWrite(p, b)` with `true` = HIGH; `warmup` is the
2-second settle delay after powering the rail; `acquireLoop p` is the retry
loop reading the sensor on pin `p` together with the two stores of its
reading; `doorRead` is the `digitalRead(DOOR_PIN)` sampling with its store;
`vcc` is the supply-voltage measurement with its store; `tx` is the
`rfwrite()` call; `chunk` is one `Sleepy::loseSomeTime(MINUTE)` of the
interval sleep. -/
inductive GEv
  | write (pin : Nat) (high : Bool)
  | warmup
  | acquireLoop (pin : Nat)
  | doorRead
  | vcc
  | tx
  | chunk
deriving DecidableEq, Repr

/-- `#define RHT03_POWER_PIN 10` (all three variants). -/
def RHT03_POWER_PIN : Nat := 10

/-- `#define RHT03_PIN 9` (basic and greenhouse variants). -/
def RHT03_PIN : Nat := 9

/-- `#define RHT03_1_PIN 9` (contact-sensing variant). -/
def RHT03_1_PIN : Nat := 9

/-- `#define RHT03_2_PIN 8` (contact-sensing variant). -/
def RHT03_2_PIN : Nat := 8

/-- The body of `loop()` of the basic variant, in source order: rail on,
warm-up, acquisition loop, rail off, `readVcc`, `rfwrite`, five sleep
chunks. No write to the sensor data pin appears. -/
def basicLoopTrace : List GEv :=
  [GEv.write RHT03_POWER_PIN true, GEv.warmup, GEv.acquireLoop RHT03_PIN,
    GEv.write RHT03_POWER_PIN false, GEv.vcc, GEv.tx] ++
    List.replicate 5 GEv.chunk

/-- The body of `loop()` of the greenhouse variant, in source order: after
the rail is powered off, `digitalWrite(RHT03_PIN, LOW);` also drives the
data pin low, then `readVcc`, the two stores, `rfwrite` and thirty sleep
chunks. -/
def greenhouseLoopTrace : List GEv :=
  [GEv.write RHT03_POWER_PIN true, GEv.warmup, GEv.acquireLoop RHT03_PIN,
    GEv.write RHT03_POWER_PIN false, GEv.write RHT03_PIN false,
    GEv.vcc, GEv.tx] ++
    List.replicate 30 GEv.chunk

/-- One `handleInterrupt()` call of the contact-sensing variant followed by
one interval sleep of its `loop()`, in source order: both sensors are
acquired, the door pin is read, the rail is powered off and both data pins
are driven low, then `readVcc` and `rfwrite`. -/
def contactCycleTrace : List GEv :=
  [GEv.write RHT03_POWER_PIN true, GEv.warmup, GEv.acquireLoop RHT03_1_PIN,
    GEv.acquireLoop RHT03_2_PIN, GEv.doorRead,
    GEv.write RHT03_POWER_PIN false, GEv.write RHT03_1_PIN false,
    GEv.write RHT03_2_PIN false, GEv.vcc, GEv.tx] ++
    List.replicate 5 GEv.chunk

/-- The events of a cycle trace after the last sensor-acquisition event and
before the first sleep chunk: the window in which C8 requires the power-down
writes to happen. -/
def postAcquireWindow (t : List GEv) : List GEv :=
  ((t.reverse.takeWhile (fun e =>
      match e with
      | GEv.acquireLoop _ => false
      | _ => true)).reverse).takeWhile (fun e => !(e == GEv.chunk))

/-- Counterexample to C8 as stated: in the basic variant the window between
the successful acquisition and the interval sleep drives the supply rail
low, but never drives the sensor data pin (digital pin 9) low. -/
theorem basic_data_pin_not_driven_low :
    GEv.write RHT03_PIN false ∉ postAcquireWindow basicLoopTrace
    ∧ GEv.write RHT03_POWER_PIN false ∈ postAcquireWindow basicLoopTrace := by
  decide

/-- C8 amended: after each successful sensor acquisition and before the
cycle's sleep begins, the sensor supply rail pin is driven low in all three
variants, and each sensor data pin is explicitly driven low in the
greenhouse and contact-sensing variants; the basic variant only powers the
rail down and leaves its data pin untouched. -/
theorem pins_low_before_sleep :
    GEv.write RHT03_POWER_PIN false ∈ postAcquireWindow basicLoopTrace
    ∧ GEv.write RHT03_POWER_PIN false ∈ postAcquireWindow greenhouseLoopTrace
    ∧ GEv.write RHT03_PIN false ∈ postAcquireWindow greenhouseLoopTrace
    ∧ GEv.write RHT03_POWER_PIN false ∈ postAcquireWindow contactCycleTrace
    ∧ GEv.write RHT03_1_PIN false ∈ postAcquireWindow contactCycleTrace
    ∧ GEv.write RHT03_2_PIN false ∈ postAcquireWindow contactCycleTrace
    ∧ GEv.write RHT03_PIN false ∉ postAcquireWindow basicLoopTrace := by
  decide

end TinySensors
